import Mathlib

/-!
Verification of the Session Execution Engine of the `browse` repository.

Each definition is a shallow embedding of a function of the Python source
(`src/backend/app/services/...`); the file cites the source location above
every definition.  Machine-level details that the claims do not touch
(image pixels, float confidences, wall-clock time) are abstracted; control
flow, data shapes and arithmetic are translated faithfully.
-/

namespace Browse

/-! ### Action cache key derivation
`src/backend/app/services/cache/action_cache.py`, `ActionCache._generate_key`
(lines 22-28):
`payload = f"{goal.strip().lower()}|{url.strip()}"` followed by
`hashlib.sha256(payload.encode()).hexdigest()`.
-/

/-- Python `str.strip()`: drop leading and trailing whitespace. -/
def py_strip (s : String) : String :=
  ⟨((s.data.dropWhile Char.isWhitespace).reverse.dropWhile
      Char.isWhitespace).reverse⟩

/-- Python `str.lower()` on the ASCII inputs at issue: lower-case each
character. -/
def py_lower (s : String) : String :=
  ⟨s.data.map Char.toLower⟩

/-- The exact string hashed by `_generate_key`:
`f"{goal.strip().lower()}|{url.strip()}"` — the stripped, lower-cased
goal, a literal `|` separator, and the stripped url. -/
def generate_key_payload (goal url : String) : String :=
  py_lower (py_strip goal) ++ "|" ++ py_strip url

/-- `ActionCache._generate_key`: the SHA-256 hex digest of
`generate_key_payload`.  The digest itself is a pure function of the
payload, so it is taken as a parameter: every fact proved for all
`digest` holds in particular for SHA-256-hex, and equal payloads yield
equal cache keys under the real digest. -/
def generate_key (digest : String → String) (goal url : String) : String :=
  digest (generate_key_payload goal url)

/-! ### Cached actions and the replay delays
Cached actions are the closed tagged union stored by the plan extractor
(`agent_service.py` lines 792-861): `click {x,y,wait_ms}`,
`type_text {text,wait_ms}`, `key_press {key,wait_ms}`. -/

/-- A cached low-level action.  `wait_ms` is the optional extra wait
carried by the record (`"wait_ms" in action` in the source). -/
inductive CachedAction where
  | click (x y : Int) (wait_ms : Option Nat)
  | type_text (text : String) (wait_ms : Option Nat)
  | key_press (key : String) (wait_ms : Option Nat)
deriving DecidableEq, Repr

/-- The `wait_ms` field of a cached action. -/
def CachedAction.waitMs : CachedAction → Option Nat
  | .click _ _ w => w
  | .type_text _ w => w
  | .key_press _ w => w

/-- The fixed post-dispatch sleep of `replay_cached_plan`
(`agent_service.py` lines 454-464): `asyncio.sleep(0.5)` after a click,
`asyncio.sleep(0.1)` after `type_text` and `key_press`, in milliseconds. -/
def default_delay_ms : CachedAction → Nat
  | .click _ _ _ => 500
  | .type_text _ _ => 100
  | .key_press _ _ => 100

/-- The sequence of sleeps `replay_cached_plan` performs after dispatching
one action (`agent_service.py` lines 454-468): first the fixed delay of
its branch, then — `if "wait_ms" in action:` — an additional
`asyncio.sleep(action["wait_ms"] / 1000)`. -/
def replay_action_sleeps_ms (a : CachedAction) : List Nat :=
  default_delay_ms a ::
    (match a.waitMs with
     | some ms => [ms]
     | none => [])

/-- Total time `replay_cached_plan` sleeps after dispatching one action. -/
def replay_action_delay_ms (a : CachedAction) : Nat :=
  (replay_action_sleeps_ms a).sum

/-! ### Action cache operations
`src/backend/app/services/cache/action_cache.py`, `get_cached_plan`
(lines 30-48) and `cache_plan` (lines 50-67).  The backing store
(`db.get_cached_plan` / `db.save_cached_plan`) is an oracle that either
returns a value or raises; `Except String` models raising with the
exception message. -/

/-- The stored record returned by `db.get_cached_plan`; only the
`actions` list is consulted by `ActionCache.get_cached_plan`. -/
structure StoredPlan where
  actions : List CachedAction
deriving DecidableEq, Repr

/-- `ActionCache.get_cached_plan`.  Source control flow:
`if not self.enabled: return None`; compute the key; inside `try`:
`plan = await db.get_cached_plan(key)`;
`if plan and plan.get("actions"): return plan["actions"]`; `return None`;
`except Exception: logger.error(...); return None`. -/
def get_cached_plan (digest : String → String) (enabled : Bool)
    (dbGet : String → Except String (Option StoredPlan))
    (goal url : String) : Except String (Option (List CachedAction)) :=
  if enabled = false then .ok none
  else
    match dbGet (generate_key digest goal url) with
    | .error _ => .ok none
    | .ok none => .ok none
    | .ok (some plan) =>
        if plan.actions.isEmpty then .ok none else .ok (some plan.actions)

/-- `ActionCache.cache_plan`.  Source control flow:
`if not self.enabled or not success or not actions: return`; compute the
key; inside `try`: `await db.save_cached_plan(...)`;
`except Exception: logger.error(...)` (and fall off the end). -/
def cache_plan (digest : String → String) (enabled : Bool)
    (dbSave : String → Except String Unit)
    (goal url : String) (actions : List CachedAction) (success : Bool) :
    Except String Unit :=
  if enabled = false ∨ success = false ∨ actions.isEmpty then .ok ()
  else
    match dbSave (generate_key digest goal url) with
    | .ok _ => .ok ()
    | .error _ => .ok ()

/-! ### Set-of-Marks
`src/backend/app/services/set_of_marks.py` (`SetOfMarks`) and
`src/backend/app/services/owl_vision_service.py` (`OWLVisionService`).
Drawing operations (rectangles, circles, labels) touch only pixels and
are not modelled; the data produced — the `MarkedElement` records — is
modelled exactly. -/

/-- A bounding box as the detector emits it:
`{'x': …, 'y': …, 'width': …, 'height': …}`. -/
structure BBox where
  x : Int
  y : Int
  w : Int
  h : Int
deriving DecidableEq, Repr

/-- One element of the `elements` list passed to `create_marked_image`:
a dict with a `type`, an optional `text`, and a bounding box.
`bounding_box = none` models a dict whose `bounding_box`/`bbox` entry is
missing or empty, the case the source guards with `if not bbox: continue`.
(The detector and the contour fallback always attach a non-empty box;
the float `confidence` field is carried through unchanged and is not
modelled.) -/
structure DetectedElement where
  etype : String
  bounding_box : Option BBox
  text : Option String
deriving DecidableEq, Repr

/-- A `MarkedElement` record (`set_of_marks.py` lines 20-28), minus the
float `confidence`. -/
structure MarkedElement where
  mark_id : Nat
  element_type : String
  bounding_box : BBox
  center : Int × Int
deriving DecidableEq, Repr

/-- The record appended for element index `i` (0-based) with box `b`
(`set_of_marks.py` lines 95-180): `mark_id = i + 1`,
`center = (x + w // 2, y + h // 2)` with Python floor division. -/
def mk_marked (i : Nat) (e : DetectedElement) (b : BBox) : MarkedElement :=
  { mark_id := i + 1
    element_type := e.etype
    bounding_box := b
    center := (b.x + b.w.fdiv 2, b.y + b.h.fdiv 2) }

/-- The `for i, element in enumerate(elements)` loop of
`create_marked_image`, started at index `i`: an element without a box is
skipped (`continue`) but the enumeration index — and with it the next
`mark_id` — still advances. -/
def mark_loop (i : Nat) : List DetectedElement → List MarkedElement
  | [] => []
  | e :: rest =>
    match e.bounding_box with
    | none => mark_loop (i + 1) rest
    | some b => mk_marked i e b :: mark_loop (i + 1) rest

/-- `SetOfMarks.create_marked_image` restricted to the marked-element
list it returns (the annotated raster is not modelled). -/
def create_marked_image (elements : List DetectedElement) :
    List MarkedElement :=
  mark_loop 0 elements

/-- `SetOfMarks.get_element_by_mark` (lines 185-194): first element whose
`mark_id` equals the query. -/
def get_element_by_mark (mark_id : Nat) (marked : List MarkedElement) :
    Option MarkedElement :=
  marked.find? (fun e => e.mark_id == mark_id)

/-- `SetOfMarks.get_click_coordinates` (lines 196-205): the stored center
of the element found by `get_element_by_mark`, else `None`. -/
def get_click_coordinates (mark_id : Nat) (marked : List MarkedElement) :
    Option (Int × Int) :=
  match get_element_by_mark mark_id marked with
  | some e => some e.center
  | none => none

/-- Outcome of `OWLVisionService.click_by_mark`
(`owl_vision_service.py` lines 153-168). -/
inductive ClickOutcome where
  | clicked (xy : Int × Int)
  | notFound
deriving DecidableEq, Repr

/-- `OWLVisionService.click_by_mark`: resolve the mark to coordinates;
on `some` dispatch `page.mouse.click(x, y)` at exactly those
coordinates and return `True`; on `None` log a warning and return
`False` — no click is dispatched. -/
def owl_click_by_mark (mark_id : Nat) (marked : List MarkedElement) :
    ClickOutcome :=
  match get_click_coordinates mark_id marked with
  | some xy => .clicked xy
  | none => .notFound

/-- A detection list whose first element carries no bounding box: the
input on which `create_marked_image` skips mark id 1. -/
def gap_elements : List DetectedElement :=
  [ { etype := "button", bounding_box := none, text := none },
    { etype := "input", bounding_box := some ⟨10, 20, 30, 40⟩,
      text := none } ]

/-- A concrete two-element detection list of the shape the detector
produces (every element boxed). -/
def demo_elements : List DetectedElement :=
  [ { etype := "button", bounding_box := some ⟨10, 20, 30, 40⟩,
      text := some "More information" },
    { etype := "link", bounding_box := some ⟨5, 5, 11, 7⟩,
      text := none } ]

/-! ### Frame Pump fallback polling
`agent_service.py`, `stream_screenshots_fallback` (lines 241-296).  The
loop keeps `last_screenshot_hash` and `consecutive_failures`; each
iteration captures a JPEG, hashes its first 1000 bytes
(`hash(screenshot_bytes[:1000])` — the hash value is abstracted as a
`Nat`), publishes only on a changed hash, and bails out when the failure
counter reaches `max_failures = 10`. -/

/-- What one iteration of the polling loop observes once the stop-flag /
registry / browser-liveness checks at the top of the loop have passed. -/
inductive PollEvent where
  /-- `get_active_page` found a page and `page.screenshot` returned
  bytes whose leading-1000-byte hash is `prefixHash`. -/
  | captured (prefixHash : Nat)
  /-- a page was found but `page.screenshot` raised (inner `except`,
  lines 282-285). -/
  | captureFailed
  /-- `get_active_page` returned `None` (the `else` branch, line 287). -/
  | noPage
  /-- the outer `try` body raised (outer `except`, lines 289-292). -/
  | outerFailed
deriving DecidableEq, Repr

/-- The loop state: `last_screenshot_hash` and `consecutive_failures`. -/
structure PollState where
  lastHash : Option Nat
  failures : Nat
deriving DecidableEq, Repr

/-- Initial loop state (`last_screenshot_hash = None`,
`consecutive_failures = 0`). -/
def poll_init : PollState := { lastHash := none, failures := 0 }

/-- One loop body: next state, the published screenshot hash if any, and
whether the loop `break`s.  Mirrors lines 262-292: a changed hash
publishes and resets the failure counter; an unchanged hash does
nothing; a capture exception and an outer exception increment the
counter and `break` once it reaches 10; a missing page increments the
counter but performs no bail-out check. -/
def poll_step (s : PollState) : PollEvent → PollState × Option Nat × Bool
  | .captured h =>
    if some h ≠ s.lastHash then
      ({ lastHash := some h, failures := 0 }, some h, false)
    else (s, none, false)
  | .captureFailed =>
    ({ s with failures := s.failures + 1 }, none,
      decide (10 ≤ s.failures + 1))
  | .noPage => ({ s with failures := s.failures + 1 }, none, false)
  | .outerFailed =>
    ({ s with failures := s.failures + 1 }, none,
      decide (10 ≤ s.failures + 1))

/-- Run the loop over a finite observation stream, collecting the
published hashes in order; a `break` truncates the run. -/
def poll_run (s : PollState) : List PollEvent → List Nat
  | [] => []
  | e :: rest =>
    match poll_step s e with
    | (s', pub, brk) =>
      (match pub with | some h => [h] | none => []) ++
        (if brk then [] else poll_run s' rest)

/-- Whether the loop processes the whole stream without hitting the
consecutive-failure bail-out. -/
def poll_survives (s : PollState) : List PollEvent → Bool
  | [] => true
  | e :: rest =>
    match poll_step s e with
    | (s', _, brk) => if brk then false else poll_survives s' rest

/-- Prepend an optional head — used to state that a run's published
hashes, preceded by the hash published last before it, never repeat
adjacently. -/
def opt_cons (o : Option Nat) (l : List Nat) : List Nat :=
  match o with
  | some h => h :: l
  | none => l

/-! ### CDP Client
`src/backend/app/services/cdp/client.py`, `CDPClient`.  The state holds
the monotone `command_id` counter, the keys of `pending_commands`, and a
log of how each command's waiting future was resolved.  Wire traffic and
the event loop are abstracted into operations. -/

/-- How a `send` caller's wait ends. -/
inductive Resolution where
  | reply
  | remoteError
  | timeout
deriving DecidableEq, Repr

/-- The client state: `command_id`, the keys of `pending_commands`, the
resolution log, and whether the `_listen_loop` task is alive. -/
structure CDPState where
  command_id : Nat
  pendingKeys : List Nat
  resolutions : List (Nat × Resolution)
  listenerAlive : Bool
deriving DecidableEq, Repr

/-- Fresh client after `connect()` (lines 14-34). -/
def cdp_init : CDPState :=
  { command_id := 0, pendingKeys := [], resolutions := [],
    listenerAlive := true }

/-- The operations the client code performs. -/
inductive CDPOp where
  /-- `send` (lines 45-62): allocate the id, register the future,
  transmit. -/
  | send
  /-- `_listen_loop` receives a frame carrying an `id` (lines 79-87),
  with or without an `error` field. -/
  | recv (id : Nat) (isError : Bool)
  /-- the 10 s `asyncio.wait_for` timeout fires inside `send`
  (lines 64-70). -/
  | timeoutFire (id : Nat)
  /-- `disconnect()` (lines 36-43): cancel the listener, close the
  socket and session. -/
  | disconnect
deriving DecidableEq, Repr

/-- One client transition.  `send` re-opens the transport when closed
(`if not self.ws or self.ws.closed: await self.connect()`), allocates
`cid = command_id`, increments the counter and registers the pending
future.  `recv` resolves and pops a pending command — only while the
listener runs.  `timeoutFire` deletes the pending entry and raises the
timeout to the caller.  `disconnect` touches only the listener and the
socket: `pending_commands` is left as-is. -/
def cdp_step (s : CDPState) : CDPOp → CDPState
  | .send =>
    { s with listenerAlive := true,
             command_id := s.command_id + 1,
             pendingKeys := s.pendingKeys ++ [s.command_id] }
  | .recv id isErr =>
    if s.listenerAlive = true ∧ id ∈ s.pendingKeys then
      { s with pendingKeys := s.pendingKeys.erase id,
               resolutions := s.resolutions ++
                 [(id, if isErr then .remoteError else .reply)] }
    else s
  | .timeoutFire id =>
    if id ∈ s.pendingKeys then
      { s with pendingKeys := s.pendingKeys.erase id,
               resolutions := s.resolutions ++ [(id, .timeout)] }
    else s
  | .disconnect => { s with listenerAlive := false }

/-- The client state after a sequence of operations. -/
def cdp_run (ops : List CDPOp) : CDPState := ops.foldl cdp_step cdp_init

/-- The invariant tying `pending_commands` to the resolution log. -/
def cdp_inv (s : CDPState) : Prop :=
  (s.resolutions.map Prod.fst).Nodup
  ∧ (∀ id ∈ s.pendingKeys, id ∉ s.resolutions.map Prod.fst)
  ∧ s.pendingKeys.Nodup
  ∧ (∀ id ∈ s.pendingKeys, id < s.command_id)
  ∧ (∀ id ∈ s.resolutions.map Prod.fst, id < s.command_id)

/-! ### Early stopping
`agent_service.py`, `on_step_end` (lines 560-590). -/

/-- The completion phrases matched against the step's evaluation
(lines 565-566). -/
def completion_indicators : List String :=
  ["task completed", "goal achieved", "successfully finished",
   "completed successfully", "task is complete", "finished successfully"]

/-- The goal-empty phrases matched against the step's next goal
(line 567). -/
def goal_empty_indicators : List String :=
  ["none", "no further", "task complete", "done"]

/-- Whether the character list starts with the pattern. -/
def chars_start_with : List Char → List Char → Bool
  | _, [] => true
  | [], _ :: _ => false
  | c :: cs, p :: ps => c == p && chars_start_with cs ps

/-- Contiguous containment of `pat` in a character list. -/
def chars_contain (pat : List Char) : List Char → Bool
  | [] => pat.isEmpty
  | c :: rest => chars_start_with (c :: rest) pat || chars_contain pat rest

/-- Python `pat in hay` on strings: contiguous substring containment. -/
def py_contains (hay pat : String) : Bool :=
  chars_contain pat.data hay.data

/-- `step_data.get(k, "").lower() if step_data.get(k) else ""`
(lines 562-563): a missing or empty field reads as the empty string,
otherwise the field is lower-cased. -/
def norm_field : Option String → String
  | none => ""
  | some s => py_lower s

/-- Which early-stop branch fires. -/
inductive StopReason where
  | taskCompleted
  | noFurtherGoals
deriving DecidableEq, Repr

/-- The early-stopping decision of `on_step_end` (lines 560-590): only
for `step_count >= 3`; a completion phrase in the evaluation raises
`StopIteration("Task completed")`, otherwise a goal-empty phrase in the
next goal raises `StopIteration("No further goals")`. -/
def early_stop_decision (step_count : Nat)
    (evaluation next_goal : Option String) : Option StopReason :=
  if 3 ≤ step_count then
    if completion_indicators.any
        (fun p => py_contains (norm_field evaluation) p) then
      some .taskCompleted
    else if goal_empty_indicators.any
        (fun p => py_contains (norm_field next_goal) p) then
      some .noFurtherGoals
    else none
  else none

/-! ### The session run trace
`agent_service.py`, `run_agent_task` (lines 319-923).  The function's
externally visible behaviour — notifications, persisted status
transitions, registry mutations, the cache write, and their order — is
embedded as a trace of events; the environment record quantifies over
the outcomes of the external collaborators (cache lookup, CDP dispatch,
the LLM-driven loop). -/

/-- What one `on_step_end` call can read out of the Agent's state; only
the fields consulted by the early-stopping check are modelled. -/
structure StepObs where
  evaluation : Option String
  next_goal : Option String
deriving DecidableEq, Repr

/-- Modelled from the spec: the Agent loop itself is the external
`browser_use` library, absent from this repository.  Per the spec
(§4.7: "raise a stop-iteration that ends the loop normally, not as a
failure"), the loop invokes the step callback after each step and
consumes a raised stop-iteration by ending the run normally.  Returns
the number of steps performed and whether an early stop fired. -/
def agent_loop (step_count : Nat) : List StepObs → Nat × Bool
  | [] => (step_count, false)
  | o :: rest =>
    match early_stop_decision (step_count + 1) o.evaluation o.next_goal with
    | some _ => (step_count + 1, true)
    | none => agent_loop (step_count + 1) rest

/-- Event names emitted through the Notification Fabric (only those the
claims mention). -/
inductive EvName where
  | session_start
  | session_update
  | session_complete
  | errorEvent
deriving DecidableEq, Repr

/-- Session record statuses. -/
inductive SStatus where
  | pending
  | active
  | paused
  | completed
  | failed
  | cancelled
  | stopped
deriving DecidableEq, Repr

/-- Externally visible events of `run_agent_task`, in program order. -/
inductive Ev where
  /-- `notify_session(session_id, name, …)` -/
  | notify (n : EvName)
  /-- `db.update_session_status(session_id, status, {…})`; the recorded
  `actions_count` and the `result.method` field, where present. -/
  | persist (st : SStatus) (actionsCount : Option Nat)
      (method : Option String)
  /-- `agent.run(max_steps, on_step_end)` starts. -/
  | agentRun
  /-- `action_cache.cache_plan(task, url, plan_actions, True)` with
  `n = len(plan_actions)`. -/
  | cachePlanWrite (n : Nat)
  /-- `running_agents[session_id] = agent` (line 397). -/
  | registerAgent
  /-- `running_browsers[session_id] = browser` (line 398). -/
  | registerBrowser
  /-- `start_streaming(session_id, browser)` (line 413):
  `streaming_tasks[session_id] = task`. -/
  | startStreaming
  /-- `stop_streaming(session_id)` in the `finally` block (line 896). -/
  | clearStreaming
  /-- `del running_agents[session_id]` (line 900). -/
  | clearAgents
  /-- `del stop_flags[session_id]` (line 904). -/
  | clearStopFlags
  /-- `running_browsers.pop(session_id, None)` + browser close
  (line 908). -/
  | clearBrowsers
  /-- `cdp_client.disconnect()` (line 921). -/
  | cdpDisconnect
deriving DecidableEq, Repr

/-- Outcomes of the run's external collaborators. -/
structure RunEnv where
  /-- the plan returned by `action_cache.get_cached_plan`
  (`[]` for a miss or an empty plan). -/
  cached : List CachedAction
  /-- the CDP client initialized successfully (lines 374-384). -/
  hasCdpClient : Bool
  /-- some dispatched action raised during replay (the `except` of
  `replay_cached_plan`, lines 472-474). -/
  replayRaises : Bool
  /-- the per-step observations the Agent produces. -/
  agentSteps : List StepObs
  /-- an exception from the Agent-loop phase other than the early-stop
  stop-iteration (which, per the spec-modelled `agent_loop`, ends the
  run normally). -/
  agentRaises : Option String
  /-- `stop_flags[session_id]` was set by `stop_agent_task`: the step
  callback then raises `asyncio.CancelledError`, a `BaseException` that
  bypasses the `except Exception` handler — no status is persisted by
  this run. -/
  stopRequested : Bool
  /-- the cacheable low-level actions mined from the step results
  (lines 792-856). -/
  extractedPlan : List CachedAction
deriving DecidableEq, Repr

/-- `replay_cached_plan` returns `True` iff a CDP client exists and no
dispatched action raised (lines 441-474). -/
def replay_success (env : RunEnv) : Bool :=
  env.hasCdpClient && !env.replayRaises

/-- The `finally` block (lines 885-923), in source order: stop the
streaming task, drop the agent, drop the stop flag, pop and close the
browser, disconnect the CDP client.  (The fire-and-forget summary task
has no registry or record effect.) -/
def cleanup_events : List Ev :=
  [.clearStreaming, .clearAgents, .clearStopFlags, .clearBrowsers,
   .cdpDisconnect]

/-- The Agent-loop phase (lines 768-870 for the normal path, 872-884 for
the exception path): run the agent; on a user stop the callback's
`CancelledError` skips both the success code and the `except Exception`
handler; on an exception persist `failed` and notify `error`; otherwise
persist `completed` with `actions_count = step_count`, cache the
extracted plan when non-empty, and notify `session_complete`. -/
def agent_phase (env : RunEnv) : List Ev :=
  .agentRun ::
    (if env.stopRequested then []
     else
       match env.agentRaises with
       | some _ => [.persist .failed none none, .notify .errorEvent]
       | none =>
         .persist .completed (some (agent_loop 0 env.agentSteps).1) none ::
           ((if env.extractedPlan.isEmpty then []
             else [.cachePlanWrite env.extractedPlan.length])
            ++ [.notify .session_complete]))

/-- The full `run_agent_task` trace: notify `session_start`; register
agent and browser and start streaming; on a cache hit with a non-empty
plan notify the instant-replay `session_update` and — when the replay
succeeds — persist `completed` with `actions_count = len(cached)` and
`result = {success: true, method: "replay"}`, notify `session_complete`
and return early (lines 432-490); otherwise fall through to the Agent
loop; the `finally` block always runs last. -/
def run_agent_task_trace (env : RunEnv) : List Ev :=
  [.notify .session_start, .registerAgent, .registerBrowser,
   .startStreaming]
  ++ (if env.cached.isEmpty then agent_phase env
      else
        .notify .session_update ::
          (if replay_success env then
             [.persist .completed (some env.cached.length) (some "replay"),
              .notify .session_complete]
           else agent_phase env))
  ++ cleanup_events

/-- Presence of the session id in the four per-session registries. -/
structure Registries where
  agents : Bool
  browsers : Bool
  stopFlags : Bool
  streaming : Bool
deriving DecidableEq, Repr

/-- How each trace event mutates the registries. -/
def apply_event (r : Registries) : Ev → Registries
  | .registerAgent => { r with agents := true }
  | .registerBrowser => { r with browsers := true }
  | .startStreaming => { r with streaming := true }
  | .clearStreaming => { r with streaming := false }
  | .clearAgents => { r with agents := false }
  | .clearStopFlags => { r with stopFlags := false }
  | .clearBrowsers => { r with browsers := false }
  | _ => r

/-- Registries at the start of the run: empty, except that
`stop_flags[session_id]` is set when a stop was requested. -/
def init_registries (env : RunEnv) : Registries :=
  { agents := false, browsers := false, stopFlags := env.stopRequested,
    streaming := false }

/-- Registries after the whole run. -/
def final_registries (env : RunEnv) : Registries :=
  (run_agent_task_trace env).foldl apply_event (init_registries env)

/-- Registry-clearing events. -/
def Ev.isClear : Ev → Bool
  | .clearStreaming => true
  | .clearAgents => true
  | .clearStopFlags => true
  | .clearBrowsers => true
  | _ => false

/-- A persisted transition into a terminal status. -/
def Ev.isTerminalPersist : Ev → Bool
  | .persist st _ _ =>
    st == .completed || st == .failed || st == .cancelled
      || st == .stopped
  | _ => false

/-- The plain run used as the concrete counterexample environment: a
cache miss, an agent that performs no step and raises nothing. -/
def env0 : RunEnv :=
  { cached := [], hasCdpClient := false, replayRaises := false,
    agentSteps := [], agentRaises := none, stopRequested := false,
    extractedPlan := [] }

/-- A cache-hit environment with a working CDP client and a clean
replay. -/
def env_replay : RunEnv :=
  { cached := [.click 100 200 (some 1000),
               .type_text "100" (some 500),
               .key_press "Enter" (some 300)],
    hasCdpClient := true, replayRaises := false,
    agentSteps := [], agentRaises := none, stopRequested := false,
    extractedPlan := [] }

/-- An environment whose third step's evaluation announces completion:
the early stop fires at step 3. -/
def env_early_stop : RunEnv :=
  { cached := [], hasCdpClient := false, replayRaises := false,
    agentSteps :=
      [ { evaluation := some "Navigated", next_goal := some "Click" },
        { evaluation := some "Clicked", next_goal := some "Check" },
        { evaluation := some "Task completed successfully.",
          next_goal := some "None" } ],
    agentRaises := none, stopRequested := false, extractedPlan := [] }

end Browse

namespace Browse

/-! ## Theorems -/

/-! ### C5 — cache key -/

/-- C5, counterexample.  The claim states `cache_key(goal, url) ==
cache_key(goal', url')` iff `lower(trim(goal)) == lower(trim(goal'))` and
`url == url'`.  It is false twice over: the goal/url pair is joined with
an unescaped `|`, so `("a", "b|c")` and `("a|b", "c")` hash the identical
payload `"a|b|c"` (hence the identical SHA-256 key) while their
normalized goals differ; and the url is trimmed, so `("g", " u")` and
`("g", "u")` share a key while the urls differ byte-wise.  `id` stands
for the hex digest: the payloads are literally equal, so the keys are
equal under every digest, SHA-256-hex included. -/
theorem cache_key_claim_counterexample :
    generate_key id "a" "b|c" = generate_key id "a|b" "c"
    ∧ py_lower (py_strip "a") ≠ py_lower (py_strip "a|b")
    ∧ generate_key id "g" " u" = generate_key id "g" "u"
    ∧ " u" ≠ "u" := by
  refine ⟨by decide, by decide, by decide, by decide⟩

/-- C5, amended: if `lower(trim(goal)) == lower(trim(goal'))` and
`trim(url) == trim(url')` then the cache keys agree (for any digest,
hence for SHA-256-hex); the converse direction of the claim fails because
the url is trimmed and the `|` separator is not escaped. -/
theorem cache_key_normalized_inputs_agree
    (digest : String → String) (g g' u u' : String)
    (hg : py_lower (py_strip g) = py_lower (py_strip g'))
    (hu : py_strip u = py_strip u') :
    generate_key digest g u = generate_key digest g' u' := by
  unfold generate_key generate_key_payload
  rw [hg, hu]

/-- C5 witness: the amended theorem applied at a concrete input. -/
theorem cache_key_normalized_inputs_agree_witness :
    generate_key id "Buy Stamps " "https://post.example/"
      = generate_key id "buy stamps" "https://post.example/" :=
  cache_key_normalized_inputs_agree id _ _ _ _ (by decide) (by decide)

/-! ### C4 — replay delays -/

/-- C4, counterexample.  The claim states that a `wait_ms` field
overrides the default delay.  In `replay_cached_plan` the default sleep
is unconditional and the `wait_ms` sleep is an additional one: a click
with `wait_ms = 1000` sleeps 1500 ms in total, not 1000 ms. -/
theorem replay_delay_claim_counterexample :
    replay_action_delay_ms (.click 100 200 (some 1000)) = 1500
    ∧ replay_action_delay_ms (.click 100 200 (some 1000))
        ≠ ((CachedAction.click 100 200 (some 1000)).waitMs.getD
            (default_delay_ms (.click 100 200 (some 1000)))) := by
  constructor
  · rfl
  · decide

/-- C4, amended: during replay each action sleeps its default delay
(500 ms after `click`, 100 ms after `type_text` and `key_press`) plus —
not instead of — its `wait_ms` when present; an action without `wait_ms`
sleeps exactly the default. -/
theorem replay_delay_is_default_plus_wait (a : CachedAction) :
    replay_action_delay_ms a = default_delay_ms a + (a.waitMs).getD 0 := by
  cases a with
  | click x y w => cases w <;> simp [replay_action_delay_ms, replay_action_sleeps_ms,
      default_delay_ms, CachedAction.waitMs]
  | type_text t w => cases w <;> simp [replay_action_delay_ms, replay_action_sleeps_ms,
      default_delay_ms, CachedAction.waitMs]
  | key_press k w => cases w <;> simp [replay_action_delay_ms, replay_action_sleeps_ms,
      default_delay_ms, CachedAction.waitMs]

/-! ### C10 — cache totality w.r.t. store failures -/

/-- C10: the Action Cache never propagates a store exception.  For every
digest, store oracle and input: `get_cached_plan` returns `.ok` (never
re-raises), `cache_plan` returns `.ok ()` (never re-raises), and when the
underlying read raises, `get_cached_plan` returns `.ok none`, i.e.
behaves as a cache miss. -/
theorem action_cache_total_on_store_failure
    (digest : String → String) (enabled : Bool)
    (dbGet : String → Except String (Option StoredPlan))
    (dbSave : String → Except String Unit)
    (goal url : String) (actions : List CachedAction) (success : Bool) :
    (∃ r, get_cached_plan digest enabled dbGet goal url = .ok r)
    ∧ cache_plan digest enabled dbSave goal url actions success = .ok ()
    ∧ (∀ msg, dbGet (generate_key digest goal url) = .error msg →
        get_cached_plan digest enabled dbGet goal url = .ok none) := by
  refine ⟨?_, ?_, ?_⟩
  · unfold get_cached_plan
    split
    · exact ⟨none, rfl⟩
    · rcases dbGet (generate_key digest goal url) with msg | plan
      · exact ⟨none, rfl⟩
      · rcases plan with _ | p
        · exact ⟨none, rfl⟩
        · dsimp only
          split
          · exact ⟨none, rfl⟩
          · exact ⟨some p.actions, rfl⟩
  · unfold cache_plan
    split
    · rfl
    · rcases dbSave (generate_key digest goal url) with msg | u
      · rfl
      · rfl
  · intro msg hmsg
    unfold get_cached_plan
    split
    · rfl
    · rw [hmsg]

/-- C10 witness: a store that always raises yields a cache miss on read
and a silent return on write. -/
theorem action_cache_total_on_store_failure_witness :
    get_cached_plan id true (fun _ => .error "boom") "g" "u" = .ok none
    ∧ cache_plan id true (fun _ => .error "boom") "g" "u"
        [.click 1 2 none] true = .ok () := by
  have h := action_cache_total_on_store_failure id true
    (fun _ => .error "boom") (fun _ => .error "boom") "g" "u"
    [.click 1 2 none] true
  exact ⟨h.2.2 "boom" rfl, h.2.1⟩

/-! ### C7 / C8 — Set-of-Marks -/

/-- When every element carries a bounding box, the marks produced by the
enumeration loop started at index `i` carry ids `i+1, i+2, …` in order. -/
theorem mark_loop_mark_ids : ∀ (es : List DetectedElement) (i : Nat),
    (∀ e ∈ es, e.bounding_box.isSome) →
    (mark_loop i es).map (fun m => m.mark_id)
      = List.range' (i + 1) es.length := by
  intro es
  induction es with
  | nil => intro i _; rfl
  | cons e rest ih =>
    intro i h
    have he : e.bounding_box.isSome := h e (List.mem_cons_self e rest)
    rcases hb : e.bounding_box with _ | b
    · rw [hb] at he; simp at he
    · have hrest : ∀ x ∈ rest, x.bounding_box.isSome :=
        fun x hx => h x (List.mem_cons_of_mem e hx)
      simp only [mark_loop, hb, List.map_cons, List.length_cons,
        List.range'_succ, List.cons.injEq]
      exact ⟨rfl, ih (i + 1) hrest⟩

/-- In a mark list whose ids read `s, s+1, …`, looking up an id outside
that window finds nothing. -/
theorem find_mark_out_of_range : ∀ (marks : List MarkedElement) (s i : Nat),
    marks.map (fun m => m.mark_id) = List.range' s marks.length →
    (i < s ∨ s + marks.length ≤ i) →
    marks.find? (fun e => e.mark_id == i) = none := by
  intro marks
  induction marks with
  | nil => intro s i _ _; rfl
  | cons m rest ih =>
    intro s i hm hi
    simp only [List.map_cons, List.length_cons, List.range'_succ,
      List.cons.injEq] at hm
    have hne : ¬ m.mark_id = i := by
      rcases hi with hlt | hge
      · omega
      · simp only [List.length_cons] at hge; omega
    rw [List.find?_cons_of_neg _ (by simpa using hne)]
    exact ih (s + 1) i hm.2
      (by simp only [List.length_cons] at hi; omega)

/-- In a mark list whose ids read `s, s+1, …`, looking up id `i` inside
the window finds exactly the element at position `i - s`. -/
theorem find_mark_in_range : ∀ (marks : List MarkedElement) (s i : Nat),
    marks.map (fun m => m.mark_id) = List.range' s marks.length →
    s ≤ i → i < s + marks.length →
    marks.find? (fun e => e.mark_id == i) = marks.get? (i - s) := by
  intro marks
  induction marks with
  | nil => intro s i _ h1 h2; simp at h2; omega
  | cons m rest ih =>
    intro s i hm h1 h2
    simp only [List.map_cons, List.length_cons, List.range'_succ,
      List.cons.injEq] at hm
    by_cases hi : i = s
    · subst hi
      rw [List.find?_cons_of_pos _ (by simp [hm.1])]
      simp
    · have hgt : s < i := lt_of_le_of_ne h1 (fun hh => hi hh.symm)
      rw [List.find?_cons_of_neg _ (by simp only [beq_iff_eq, hm.1]; omega)]
      have hrec := ih (s + 1) i hm.2 (by omega)
        (by simp only [List.length_cons] at h2; omega)
      rw [hrec]
      have hd : i - s = (i - (s + 1)) + 1 := by omega
      rw [hd]
      rfl

/-- When every element carries a bounding box, the produced marks are
one per element and their ids are exactly `1..N` in order. -/
theorem marks_ids_range (elements : List DetectedElement)
    (h : ∀ e ∈ elements, e.bounding_box.isSome) :
    (create_marked_image elements).map (fun m => m.mark_id)
      = List.range' 1 (create_marked_image elements).length
    ∧ (create_marked_image elements).length = elements.length := by
  have hlen : (create_marked_image elements).length = elements.length := by
    have := mark_loop_mark_ids elements 0 h
    have hl := congrArg List.length this
    simpa [create_marked_image] using hl
  refine ⟨?_, hlen⟩
  rw [hlen]
  exact mark_loop_mark_ids elements 0 h

/-- C8, counterexample.  The claim asserts dense 1-indexed `mark_id`s for
every input list.  An element whose dict carries no bounding box is
skipped by `continue` after the enumeration index already advanced, so
the sole mark produced for `gap_elements` carries `mark_id = 2` — the ids
are not `1..N`. -/
theorem marks_dense_claim_counterexample :
    ¬ ((create_marked_image gap_elements).map (fun m => m.mark_id)
        = List.range' 1 (create_marked_image gap_elements).length) := by
  decide

/-- C8, amended: when every detected element carries a bounding box — as
every in-repository producer (the YOLO detector and the contour
fallback) guarantees — `create_marked_image` assigns `mark_id`s that are
exactly `1..N` in detection order, one per element. -/
theorem marks_dense_of_all_boxed (elements : List DetectedElement)
    (h : ∀ e ∈ elements, e.bounding_box.isSome) :
    (create_marked_image elements).map (fun m => m.mark_id)
      = List.range' 1 (create_marked_image elements).length
    ∧ (create_marked_image elements).length = elements.length :=
  marks_ids_range elements h

/-- C8 witness: the amended theorem applied to a concrete two-element
detection list. -/
theorem marks_dense_of_all_boxed_witness :
    (create_marked_image demo_elements).map (fun m => m.mark_id)
      = List.range' 1 (create_marked_image demo_elements).length
    ∧ (create_marked_image demo_elements).length = demo_elements.length :=
  marks_dense_of_all_boxed demo_elements (by decide)

/-- C7: for marks produced from a detection list in which every element
carries a bounding box (the shape the marking pipeline always feeds in),
`click_by_mark i` with `1 ≤ i ≤ N` resolves to exactly the center
recorded for mark `i` — the element at position `i - 1` of the marks
list — and dispatches the click there, while `click_by_mark 0` and
`click_by_mark (N+1)` resolve to nothing and dispatch no click. -/
theorem click_by_mark_resolves (elements : List DetectedElement)
    (h : ∀ e ∈ elements, e.bounding_box.isSome) (i : Nat) :
    (1 ≤ i → i ≤ (create_marked_image elements).length →
      ∃ m, (create_marked_image elements).get? (i - 1) = some m
        ∧ get_click_coordinates i (create_marked_image elements)
            = some m.center
        ∧ owl_click_by_mark i (create_marked_image elements)
            = .clicked m.center)
    ∧ get_click_coordinates 0 (create_marked_image elements) = none
    ∧ owl_click_by_mark 0 (create_marked_image elements) = .notFound
    ∧ get_click_coordinates ((create_marked_image elements).length + 1)
        (create_marked_image elements) = none
    ∧ owl_click_by_mark ((create_marked_image elements).length + 1)
        (create_marked_image elements) = .notFound := by
  have hm : (create_marked_image elements).map (fun m => m.mark_id)
      = List.range' 1 (create_marked_image elements).length :=
    (marks_ids_range elements h).1
  refine ⟨?_, ?_, ?_, ?_, ?_⟩
  · intro h1 h2
    have hf := find_mark_in_range (create_marked_image elements) 1 i hm h1
      (by omega)
    have hlt : i - 1 < (create_marked_image elements).length := by omega
    have hgm : (create_marked_image elements).get? (i - 1)
        = some ((create_marked_image elements).get ⟨i - 1, hlt⟩) :=
      List.get?_eq_get hlt
    refine ⟨(create_marked_image elements).get ⟨i - 1, hlt⟩, hgm, ?_, ?_⟩
    · unfold get_click_coordinates get_element_by_mark
      rw [hf, hgm]
    · unfold owl_click_by_mark get_click_coordinates get_element_by_mark
      rw [hf, hgm]
  · unfold get_click_coordinates get_element_by_mark
    rw [find_mark_out_of_range _ 1 0 hm (by omega)]
  · unfold owl_click_by_mark get_click_coordinates get_element_by_mark
    rw [find_mark_out_of_range _ 1 0 hm (by omega)]
  · unfold get_click_coordinates get_element_by_mark
    rw [find_mark_out_of_range _ 1 _ hm (by omega)]
  · unfold owl_click_by_mark get_click_coordinates get_element_by_mark
    rw [find_mark_out_of_range _ 1 _ hm (by omega)]

/-- C7 witness: on the concrete two-element detection list, mark 1
resolves to the first recorded center and marks 0 and 3 resolve to
nothing. -/
theorem click_by_mark_resolves_witness :
    (∃ m, (create_marked_image demo_elements).get? 0 = some m
      ∧ get_click_coordinates 1 (create_marked_image demo_elements)
          = some m.center
      ∧ owl_click_by_mark 1 (create_marked_image demo_elements)
          = .clicked m.center)
    ∧ get_click_coordinates 0 (create_marked_image demo_elements) = none
    ∧ owl_click_by_mark 3 (create_marked_image demo_elements)
        = .notFound := by
  have h := click_by_mark_resolves demo_elements (by decide) 1
  refine ⟨h.1 (by decide) (by decide), h.2.1, ?_⟩
  have h3 := click_by_mark_resolves demo_elements (by decide) 3
  exact h3.2.2.2.2

/-! ### C9 — Frame Pump fallback polling -/

/-- The hashes a run publishes, preceded by the hash last published
before the run started, never repeat adjacently: an identical-prefix
frame is never re-published. -/
theorem poll_run_chain : ∀ (evs : List PollEvent) (s : PollState),
    List.Chain' (fun a b => a ≠ b) (opt_cons s.lastHash (poll_run s evs)) := by
  intro evs
  induction evs with
  | nil =>
    intro s
    rcases hls : s.lastHash with _ | h0 <;> simp [poll_run, opt_cons]
  | cons e rest ih =>
    intro s
    cases e with
    | captured h =>
      by_cases hc : some h ≠ s.lastHash
      · have hrun : poll_run s (.captured h :: rest)
            = h :: poll_run { lastHash := some h, failures := 0 } rest := by
          simp [poll_run, poll_step, hc]
        rw [hrun]
        have hih := ih { lastHash := some h, failures := 0 }
        simp only [opt_cons] at hih
        rcases hls : s.lastHash with _ | h0
        · simpa [opt_cons] using hih
        · have hne : h0 ≠ h := by
            rw [hls] at hc
            intro hE
            exact hc (by rw [hE])
          simp only [opt_cons]
          exact List.chain'_cons.2 ⟨hne, hih⟩
      · rw [not_not] at hc
        have hrun : poll_run s (.captured h :: rest) = poll_run s rest := by
          simp [poll_run, poll_step, hc]
        rw [hrun]
        exact ih s
    | captureFailed =>
      by_cases hb : 10 ≤ s.failures + 1
      · have hrun : poll_run s (.captureFailed :: rest) = [] := by
          simp [poll_run, poll_step, hb]
        rw [hrun]
        rcases hls : s.lastHash with _ | h0 <;> simp [opt_cons]
      · have hrun : poll_run s (.captureFailed :: rest)
            = poll_run { s with failures := s.failures + 1 } rest := by
          simp [poll_run, poll_step, hb]
        rw [hrun]
        exact ih { s with failures := s.failures + 1 }
    | noPage =>
      have hrun : poll_run s (.noPage :: rest)
          = poll_run { s with failures := s.failures + 1 } rest := by
        simp [poll_run, poll_step]
      rw [hrun]
      exact ih { s with failures := s.failures + 1 }
    | outerFailed =>
      by_cases hb : 10 ≤ s.failures + 1
      · have hrun : poll_run s (.outerFailed :: rest) = [] := by
          simp [poll_run, poll_step, hb]
        rw [hrun]
        rcases hls : s.lastHash with _ | h0 <;> simp [opt_cons]
      · have hrun : poll_run s (.outerFailed :: rest)
            = poll_run { s with failures := s.failures + 1 } rest := by
          simp [poll_run, poll_step, hb]
        rw [hrun]
        exact ih { s with failures := s.failures + 1 }

/-- Ten uninterrupted capture failures always trip the bail-out,
whatever the counter already holds. -/
theorem poll_fail_bail : ∀ (n : Nat) (s : PollState), 1 ≤ n →
    10 ≤ s.failures + n →
    poll_survives s (List.replicate n PollEvent.captureFailed) = false := by
  intro n
  induction n with
  | zero => intro s h1 _; omega
  | succ m ih =>
    intro s _ h10
    by_cases hb : 10 ≤ s.failures + 1
    · simp [poll_survives, poll_step, List.replicate_succ, hb]
    · have hm : 1 ≤ m := by omega
      have h10' : 10 ≤ (s.failures + 1) + m := by omega
      simp only [List.replicate_succ, poll_survives, poll_step]
      rw [if_neg (by simpa using hb)]
      exact ih { s with failures := s.failures + 1 } hm h10'

/-- C9: in the fallback polling loop, a captured frame is published
exactly when the hash of its leading 1000 bytes differs from the hash of
the last published frame (so an identical-prefix frame is never
re-published — no two adjacently published hashes are equal), and ten
consecutive capture failures always make the loop exit. -/
theorem frame_pump_fallback_claim :
    (∀ (s : PollState) (h : Nat),
      (poll_step s (.captured h)).2.1
        = if some h = s.lastHash then none else some h)
    ∧ (∀ evs : List PollEvent,
        List.Chain' (fun a b => a ≠ b) (poll_run poll_init evs))
    ∧ (∀ s : PollState,
        poll_survives s (List.replicate 10 PollEvent.captureFailed)
          = false) := by
  refine ⟨?_, ?_, ?_⟩
  · intro s h
    by_cases hc : some h = s.lastHash
    · simp [poll_step, hc]
    · simp [poll_step, hc]
  · intro evs
    simpa [poll_init, opt_cons] using poll_run_chain evs poll_init
  · intro s
    exact poll_fail_bail 10 s (by omega) (by omega)

/-! ### C6 — CDP Client -/

/-- Every CDP client transition preserves the pending/resolved
invariant. -/
theorem cdp_step_inv (s : CDPState) (op : CDPOp) (h : cdp_inv s) :
    cdp_inv (cdp_step s op) := by
  obtain ⟨hnodupR, hdisj, hnodupP, hboundP, hboundR⟩ := h
  cases op with
  | send =>
    refine ⟨hnodupR, ?_, ?_, ?_, ?_⟩
    · intro id hid
      rcases List.mem_append.1 hid with h1 | h2
      · exact hdisj id h1
      · simp at h2
        subst h2
        intro hcon
        exact absurd (hboundR _ hcon) (lt_irrefl _)
    · refine List.Nodup.append hnodupP (List.nodup_singleton _) ?_
      intro a ha hb
      simp at hb
      subst hb
      exact absurd (hboundP _ ha) (lt_irrefl _)
    · intro id hid
      rcases List.mem_append.1 hid with h1 | h2
      · exact Nat.lt_succ_of_lt (hboundP id h1)
      · simp at h2
        subst h2
        exact Nat.lt_succ_self _
    · intro id hid
      exact Nat.lt_succ_of_lt (hboundR id hid)
  | recv cid isErr =>
    by_cases hc : s.listenerAlive = true ∧ cid ∈ s.pendingKeys
    · simp only [cdp_step, if_pos hc]
      obtain ⟨hla, hmem⟩ := hc
      refine ⟨?_, ?_, List.Nodup.erase cid hnodupP, ?_, ?_⟩
      · rw [List.map_append]
        refine List.Nodup.append hnodupR (List.nodup_singleton _) ?_
        intro a ha hb
        simp at hb
        subst hb
        exact hdisj a hmem ha
      · intro id' hid'
        have hmem' := (List.Nodup.mem_erase_iff hnodupP).1 hid'
        rw [List.map_append, List.mem_append]
        rintro (hr | hr)
        · exact hdisj id' hmem'.2 hr
        · simp at hr
          exact hmem'.1 hr
      · intro id' hid'
        exact hboundP id' (List.mem_of_mem_erase hid')
      · intro id' hid'
        rw [List.map_append, List.mem_append] at hid'
        rcases hid' with hr | hr
        · exact hboundR id' hr
        · simp at hr
          subst hr
          exact hboundP _ hmem
    · simp only [cdp_step, if_neg hc]
      exact ⟨hnodupR, hdisj, hnodupP, hboundP, hboundR⟩
  | timeoutFire cid =>
    by_cases hc : cid ∈ s.pendingKeys
    · simp only [cdp_step, if_pos hc]
      refine ⟨?_, ?_, List.Nodup.erase cid hnodupP, ?_, ?_⟩
      · rw [List.map_append]
        refine List.Nodup.append hnodupR (List.nodup_singleton _) ?_
        intro a ha hb
        simp at hb
        subst hb
        exact hdisj a hc ha
      · intro id' hid'
        have hmem' := (List.Nodup.mem_erase_iff hnodupP).1 hid'
        rw [List.map_append, List.mem_append]
        rintro (hr | hr)
        · exact hdisj id' hmem'.2 hr
        · simp at hr
          exact hmem'.1 hr
      · intro id' hid'
        exact hboundP id' (List.mem_of_mem_erase hid')
      · intro id' hid'
        rw [List.map_append, List.mem_append] at hid'
        rcases hid' with hr | hr
        · exact hboundR id' hr
        · simp at hr
          subst hr
          exact hboundP _ hc
    · simp only [cdp_step, if_neg hc]
      exact ⟨hnodupR, hdisj, hnodupP, hboundP, hboundR⟩
  | disconnect =>
    exact ⟨hnodupR, hdisj, hnodupP, hboundP, hboundR⟩

/-- The invariant holds after any operation sequence from a fresh
client. -/
theorem cdp_run_inv (ops : List CDPOp) : cdp_inv (cdp_run ops) := by
  have hinit : cdp_inv cdp_init := by
    refine ⟨List.nodup_nil, ?_, List.nodup_nil, ?_, ?_⟩ <;>
      intro id hid <;> simp [cdp_init] at hid
  have hstep : ∀ (l : List CDPOp) (s : CDPState), cdp_inv s →
      cdp_inv (l.foldl cdp_step s) := by
    intro l
    induction l with
    | nil => intro s hs; exact hs
    | cons op rest ih =>
      intro s hs
      exact ih (cdp_step s op) (cdp_step_inv s op hs)
  exact hstep ops cdp_init hinit

/-- C6, counterexample.  The claim asserts that `disconnect()` cancels
every still-pending command.  It does not: after `send` followed by
`disconnect`, command 0 is still in `pending_commands` and its waiter was
never resolved — `disconnect` only cancels the listener task and closes
the socket. -/
theorem cdp_disconnect_claim_counterexample :
    (cdp_run [CDPOp.send, CDPOp.disconnect]).pendingKeys = [0]
    ∧ (cdp_run [CDPOp.send, CDPOp.disconnect]).resolutions = []
    ∧ (cdp_run [CDPOp.send, CDPOp.disconnect]).listenerAlive = false := by
  refine ⟨rfl, rfl, rfl⟩

/-- C6, amended: a command's waiter is resolved at most once — by the
framed reply with its id, the remote error carried in that reply, or the
caller's 10 s timeout — and a still-pending command is always resolvable
by its timeout; `disconnect()` does not cancel pending commands: it
leaves `pending_commands` (and the resolution log) untouched and only
stops the reader. -/
theorem cdp_resolved_at_most_once (ops : List CDPOp) :
    ((cdp_run ops).resolutions.map Prod.fst).Nodup
    ∧ (∀ id ∈ (cdp_run ops).pendingKeys,
        id ∉ (cdp_run ops).resolutions.map Prod.fst)
    ∧ (∀ s : CDPState,
        (cdp_step s .disconnect).pendingKeys = s.pendingKeys
        ∧ (cdp_step s .disconnect).resolutions = s.resolutions)
    ∧ (∀ (s : CDPState) (id : Nat), id ∈ s.pendingKeys →
        (cdp_step s (.timeoutFire id)).resolutions
          = s.resolutions ++ [(id, Resolution.timeout)]) := by
  obtain ⟨h1, h2, _, _, _⟩ := cdp_run_inv ops
  refine ⟨h1, h2, ?_, ?_⟩
  · intro s
    exact ⟨rfl, rfl⟩
  · intro s id hid
    simp [cdp_step, hid]

/-- C6 witness: the amended theorem applied to a concrete sequence — a
command answered by its reply is resolved once, disconnecting after a
lone `send` keeps command 0 pending, and firing its timeout resolves
it. -/
theorem cdp_resolved_at_most_once_witness :
    ((cdp_run [CDPOp.send, CDPOp.recv 0 false]).resolutions.map
        Prod.fst).Nodup
    ∧ (cdp_step (cdp_run [CDPOp.send]) CDPOp.disconnect).pendingKeys
        = (cdp_run [CDPOp.send]).pendingKeys
    ∧ (cdp_step (cdp_run [CDPOp.send]) (CDPOp.timeoutFire 0)).resolutions
        = (cdp_run [CDPOp.send]).resolutions
            ++ [(0, Resolution.timeout)] := by
  have h := cdp_resolved_at_most_once [CDPOp.send, CDPOp.recv 0 false]
  have h' := cdp_resolved_at_most_once []
  exact ⟨h.1, (h'.2.2.1 (cdp_run [CDPOp.send])).1,
    h'.2.2.2 (cdp_run [CDPOp.send]) 0 (by decide)⟩

/-! ### C1 — registry cleanup vs. terminal persist -/

/-- No event of the Agent-loop phase clears a registry. -/
theorem agent_phase_no_clear (env : RunEnv) :
    ∀ e ∈ agent_phase env, e.isClear = false := by
  intro e he
  unfold agent_phase at he
  cases hstop : env.stopRequested with
  | true =>
    simp [hstop] at he
    subst he
    rfl
  | false =>
    cases hra : env.agentRaises with
    | some msg =>
      simp [hstop, hra] at he
      rcases he with h | h | h <;> subst h <;> rfl
    | none =>
      by_cases hep : env.extractedPlan.isEmpty
      · simp [hstop, hra, hep] at he
        rcases he with h | h | h <;> subst h <;> rfl
      · simp [hstop, hra, hep] at he
        rcases he with h | h | h | h <;> subst h <;> rfl

/-- The `finally` block clears all four registries, whatever their
contents. -/
theorem cleanup_resets (r : Registries) :
    List.foldl apply_event r cleanup_events
      = { agents := false, browsers := false, stopFlags := false,
          streaming := false } := by
  rfl

/-- C1, counterexample.  On the plain completed run `env0`, the event at
index 5 of the trace is the terminal persist (`status=completed`), the
events before it contain no registry clear, and at that moment
`running_agents`, `running_browsers` and `streaming_tasks` still hold
the session — the registries are not cleared before the record is
persisted to its terminal state; they are cleared afterwards, in the
`finally` block. -/
theorem session_cleanup_claim_counterexample :
    ((run_agent_task_trace env0).take 5).all (fun e => !e.isClear) = true
    ∧ (run_agent_task_trace env0).get? 5
        = some (.persist .completed (some 0) none)
    ∧ (((run_agent_task_trace env0).take 5).foldl apply_event
        (init_registries env0)).agents = true
    ∧ (((run_agent_task_trace env0).take 5).foldl apply_event
        (init_registries env0)).browsers = true
    ∧ (((run_agent_task_trace env0).take 5).foldl apply_event
        (init_registries env0)).streaming = true := by
  refine ⟨rfl, rfl, rfl, rfl, rfl⟩

/-- C1, amended: after every run the session is absent from all four
per-session registries — `running_agents`, `running_browsers`,
`stop_flags`, `streaming_tasks` — but the clearing happens in the
cleanup (`finally`) phase after the terminal state has been persisted,
not before: the trace is a body containing no clear event followed by
the cleanup suffix, which contains every clear and no persist. -/
theorem session_cleanup_amended (env : RunEnv) :
    final_registries env
      = { agents := false, browsers := false, stopFlags := false,
          streaming := false }
    ∧ (∃ body, run_agent_task_trace env = body ++ cleanup_events
        ∧ (∀ e ∈ body, e.isClear = false)
        ∧ (∀ e ∈ cleanup_events, e.isTerminalPersist = false)) := by
  constructor
  · unfold final_registries run_agent_task_trace
    rw [List.foldl_append]
    exact cleanup_resets _
  · refine ⟨[.notify .session_start, .registerAgent, .registerBrowser,
      .startStreaming]
      ++ (if env.cached.isEmpty then agent_phase env
          else
            .notify .session_update ::
              (if replay_success env then
                 [.persist .completed (some env.cached.length)
                    (some "replay"),
                  .notify .session_complete]
               else agent_phase env)), rfl, ?_, by decide⟩
    intro e he
    rcases List.mem_append.1 he with h | h
    · simp at h
      rcases h with h | h | h | h <;> subst h <;> rfl
    · by_cases hc : env.cached.isEmpty
      · rw [if_pos hc] at h
        exact agent_phase_no_clear env e h
      · rw [if_neg hc] at h
        rcases List.mem_cons.1 h with h1 | h1
        · subst h1
          rfl
        · by_cases hr : replay_success env = true
          · simp [hr] at h1
            rcases h1 with h2 | h2 <;> subst h2 <;> rfl
          · rw [Bool.not_eq_true] at hr
            simp [hr] at h1
            exact agent_phase_no_clear env e h1

/-! ### C2 — early stopping -/

/-- C2: below step 3 the early-stop check never fires, whatever the
step's content; from step 3 on, a completion phrase in the evaluation or
a goal-empty phrase in the next goal always raises the stop-iteration;
and a run whose loop ends through the early stop (with no other
exception) persists `completed` — never `failed`. -/
theorem early_stop_claim :
    (∀ (c : Nat) (ev ng : Option String), c < 3 →
      early_stop_decision c ev ng = none)
    ∧ (∀ (c : Nat) (ev ng : Option String), 3 ≤ c →
        (completion_indicators.any
            (fun p => py_contains (norm_field ev) p) = true
         ∨ goal_empty_indicators.any
            (fun p => py_contains (norm_field ng) p) = true) →
        (early_stop_decision c ev ng).isSome = true)
    ∧ (∀ env : RunEnv, env.cached = [] → env.stopRequested = false →
        env.agentRaises = none → (agent_loop 0 env.agentSteps).2 = true →
        (∀ (cnt : Option Nat) (m : Option String),
          Ev.persist .failed cnt m ∉ run_agent_task_trace env)
        ∧ Ev.persist .completed (some (agent_loop 0 env.agentSteps).1) none
            ∈ run_agent_task_trace env) := by
  refine ⟨?_, ?_, ?_⟩
  · intro c ev ng hlt
    unfold early_stop_decision
    rw [if_neg (by omega)]
  · intro c ev ng hge hor
    unfold early_stop_decision
    rw [if_pos hge]
    rcases hor with h | h
    · simp [h]
    · by_cases h1 : completion_indicators.any
          (fun p => py_contains (norm_field ev) p) = true
      · simp [h1]
      · rw [Bool.not_eq_true] at h1
        simp [h1, h]
  · intro env hc hs hr _
    have hce : env.cached.isEmpty = true := by simp [hc]
    constructor
    · intro cnt m hmem
      unfold run_agent_task_trace agent_phase cleanup_events at hmem
      rw [hce] at hmem
      simp [hs, hr] at hmem
    · unfold run_agent_task_trace agent_phase
      rw [hce]
      simp [hs, hr]

/-- C2 witness: at a concrete run whose third step announces completion:
the same content at step 2 triggers nothing; at step 3 it triggers the
stop; and the run ends persisted `completed` with no `failed` persist. -/
theorem early_stop_claim_witness :
    early_stop_decision 2 (some "Task completed successfully.")
        (some "None") = none
    ∧ (early_stop_decision 3 (some "Task completed successfully.")
        (some "Continue")).isSome = true
    ∧ Ev.persist .failed none none ∉ run_agent_task_trace env_early_stop
    ∧ Ev.persist .completed (some 3) none
        ∈ run_agent_task_trace env_early_stop := by
  have h := early_stop_claim
  have h3 := h.2.2 env_early_stop rfl rfl rfl (by decide)
  exact ⟨h.1 2 _ _ (by omega), h.2.1 3 _ _ (by omega) (Or.inl (by decide)),
    h3.1 none none, h3.2⟩

/-! ### C3 — cache-hit replay -/

/-- C3: with a CDP client present and a non-empty cached plan, a replay
in which no action raises yields exactly the short-circuit trace — the
session is persisted `completed` with `actions_count = |plan|` and
`result.method = "replay"`, `session_complete` is emitted, and neither
the Agent loop nor `cache_plan` runs; if some action raises, the run
falls through to the Agent loop, and no `failed` status is persisted
unless the Agent loop itself raises. -/
theorem cache_replay_claim (env : RunEnv)
    (hcdp : env.hasCdpClient = true) (hne : ¬ env.cached.isEmpty = true) :
    (env.replayRaises = false →
      run_agent_task_trace env
        = [.notify .session_start, .registerAgent, .registerBrowser,
           .startStreaming, .notify .session_update,
           .persist .completed (some env.cached.length) (some "replay"),
           .notify .session_complete] ++ cleanup_events)
    ∧ (env.replayRaises = true →
        Ev.agentRun ∈ run_agent_task_trace env
        ∧ (env.agentRaises = none →
            ∀ (cnt : Option Nat) (m : Option String),
              Ev.persist .failed cnt m ∉ run_agent_task_trace env)) := by
  constructor
  · intro hrr
    unfold run_agent_task_trace
    rw [if_neg hne]
    have hrs : replay_success env = true := by
      simp [replay_success, hcdp, hrr]
    rw [if_pos hrs]
    rfl
  · intro hrr
    have hrs : replay_success env = false := by
      simp [replay_success, hrr]
    constructor
    · unfold run_agent_task_trace agent_phase
      rw [if_neg hne]
      simp [hrs]
    · intro hra cnt m hmem
      unfold run_agent_task_trace agent_phase cleanup_events at hmem
      rw [if_neg hne] at hmem
      cases hstop : env.stopRequested with
      | true => simp [hrs, hstop] at hmem
      | false =>
        by_cases hep : env.extractedPlan.isEmpty
        · simp [hrs, hstop, hra, hep] at hmem
        · simp [hrs, hstop, hra, hep] at hmem

/-- C3 witness: the seed-test environment — three cached actions, a
working CDP client, a clean replay — produces exactly the short-circuit
trace; and the same plan with a raising replay reaches the Agent loop
with no `failed` persist. -/
theorem cache_replay_claim_witness :
    run_agent_task_trace env_replay
      = [.notify .session_start, .registerAgent, .registerBrowser,
         .startStreaming, .notify .session_update,
         .persist .completed (some 3) (some "replay"),
         .notify .session_complete] ++ cleanup_events
    ∧ Ev.agentRun
        ∈ run_agent_task_trace { env_replay with replayRaises := true }
    ∧ Ev.persist .failed none none
        ∉ run_agent_task_trace { env_replay with replayRaises := true } := by
  have h1 := cache_replay_claim env_replay rfl (by decide)
  have h2 := cache_replay_claim { env_replay with replayRaises := true }
    rfl (by decide)
  exact ⟨h1.1 rfl, (h2.2 rfl).1, (h2.2 rfl).2 rfl none none⟩

end Browse
